import Mathlib

/-!
# Bounce Shooter — simulation core, shallow embedding

Shallow embedding of the simulation core of the breakout/bounce-shooter game
(`src/unnamed/part_001`, grid state from `src/state.js`).  JS numbers are
modelled as `ℚ` (all arithmetic the core performs is field arithmetic plus
`Math.ceil`/`Math.abs`/`Math.max`/`Math.min`), millisecond timestamps as `ℤ`,
HP values as `ℤ`, and counters as `ℕ`.  The string-keyed occupancy set
`gridOccupied` of `state.js` (keys `"row,col"`) is modelled as a
`Finset (ℕ × ℕ)` of `(row, col)` pairs; the key encoding is injective, so the
two are isomorphic.  Sources of nondeterminism the browser supplies
(`Date.now()`, `Math.random()` column shuffles and spawn rolls, `Math.sqrt`
for aim-vector normalisation, canvas geometry) are passed in explicitly
through an `Env` record, with the shuffled column orders provided as an
indexed supply `orders : ℕ → List ℕ` consumed left to right.
-/

namespace BounceShooter

/-- `GRID_COLUMNS` from `config.js` (quoted in `QUICK_REF.md`). -/
def GRID_COLUMNS : ℕ := 8

/-- `GRID_CELL_SIZE` from `config.js` (quoted in `QUICK_REF.md`). -/
def GRID_CELL_SIZE : ℚ := 40

/-- Enemy tier label, the `size` field of a block (`'LARGE'`/`'MEDIUM'`/
`'SMALL'`/`'ELITE'` strings in the JS). -/
inductive Tier where
  | LARGE
  | MEDIUM
  | SMALL
  | ELITE
deriving DecidableEq, Repr

/-- `BLOCK_SIZES[t].size` from `part_001`.  `BLOCK_SIZES` has no `ELITE`
entry and the code never reads a size for that tier; the value returned for
`ELITE` here is arbitrary (`0`). -/
def tierSize : Tier → ℚ
  | .LARGE => 80
  | .MEDIUM => 60
  | .SMALL => 40
  | .ELITE => 0

/-- A projectile object as pushed by `shootBulletInDirection`. -/
structure Bullet where
  x : ℚ
  y : ℚ
  width : ℚ
  height : ℚ
  vx : ℚ
  vy : ℚ
  bounces : ℕ
  damage : ℤ
deriving DecidableEq, Repr

/-- An enemy ("block") object.  Every creation site in `part_001`
(`spawnBlock`, `spawnEliteBlock`, `splitBlock`) sets all of these fields, so
`gridCells` is always defined; `gridFreed` is absent at creation (JS
`undefined`, falsy), modelled as `false`. -/
structure Block where
  x : ℚ
  y : ℚ
  width : ℚ
  height : ℚ
  hp : ℤ
  maxHp : ℤ
  size : Tier
  isElite : Bool
  speed : ℚ
  gridCol : ℕ
  gridRow : ℕ
  gridCells : ℕ
  gridFreed : Bool := false
deriving DecidableEq, Repr

/-- Result record of `findAvailableGridCell` (`{ col, row, cellsNeeded }`). -/
structure GridPos where
  col : ℕ
  row : ℕ
  cellsNeeded : ℕ
deriving DecidableEq, Repr

/-- The mutable game state of `part_001` (module-level `let` bindings) plus
the grid occupancy set owned by `state.js`. -/
structure GameState where
  gameRunning : Bool
  gameOver : Bool
  gamePaused : Bool
  showUpgradeMenu : Bool
  score : ℤ
  kills : ℕ
  requiredKills : ℕ
  level : ℕ
  bulletDamage : ℤ
  bulletSpeedMultiplier : ℚ
  maxBounces : ℕ
  bullets : List Bullet
  blocks : List Block
  grid : Finset (ℕ × ℕ)
  currentBlockSpeed : ℚ
  currentSpawnInterval : ℚ
  lastShot : ℤ
  lastBlockSpawn : ℤ
  isAiming : Bool
  aimStartX : ℚ
  aimStartY : ℚ
  aimCurrentX : ℚ
  aimCurrentY : ℚ
  lastDirX : ℚ
  lastDirY : ℚ
deriving DecidableEq

/-- Per-frame inputs the browser environment supplies: the clock, the canvas
rectangle, safe-area insets, the player's position (set by `resizeCanvas`),
`Math.sqrt` (applied to the squared aim-drag distance), the shuffled column
orders produced by the Fisher–Yates shuffle inside `findAvailableGridCell`
(one list per call, consumed in order), and the `Math.random() < 0.3` roll
for the second spawn at level ≥ 3. -/
structure Env where
  now : ℤ
  rectW : ℚ
  rectH : ℚ
  safeL : ℚ
  safeR : ℚ
  playerX : ℚ
  playerY : ℚ
  sqrtD : ℚ → ℚ
  orders : ℕ → List ℕ
  roll2 : Bool

/-- `Math.ceil(enemySize / GRID_CELL_SIZE)` from `findAvailableGridCell`. -/
def cellsNeededFor (enemySize : ℚ) : ℕ :=
  (⌈enemySize / GRID_CELL_SIZE⌉).toNat

/-- The inner `allFree` double loop of `findAvailableGridCell`: the
`cellsNeeded × cellsNeeded` block anchored at `(row, col)` stays within the
column bound and hits no occupied cell. -/
def blockFree (g : Finset (ℕ × ℕ)) (row col need : ℕ) : Bool :=
  (List.range need).all fun dc =>
    (List.range need).all fun dr =>
      decide (col + dc < GRID_COLUMNS) && !decide ((row + dr, col + dc) ∈ g)

/-- `findAvailableGridCell(enemySize)` from `part_001`: scan rows `0..4`,
and within each row the columns in the shuffled order `order`; return the
first fully-free block, else `none`. -/
def findAvailableGridCell (g : Finset (ℕ × ℕ)) (order : List ℕ)
    (enemySize : ℚ) : Option GridPos :=
  let need := cellsNeededFor enemySize
  (List.range 5).findSome? fun row =>
    order.findSome? fun col =>
      if blockFree g row col need then some ⟨col, row, need⟩ else none

/-- The caller-side double loop marking a placed block's cells occupied
(`occupyGridCell(gridPos.row + dr, gridPos.col + dc)`). -/
def occupyCells (g : Finset (ℕ × ℕ)) (row col need : ℕ) : Finset (ℕ × ℕ) :=
  (List.range need).foldl
    (fun g1 dc =>
      (List.range need).foldl (fun g2 dr => insert (row + dr, col + dc) g2) g1)
    g

/-- The double loop freeing a block's cells
(`freeGridCell(block.gridRow + dr, block.gridCol + dc)`). -/
def freeCells (g : Finset (ℕ × ℕ)) (row col need : ℕ) : Finset (ℕ × ℕ) :=
  (List.range need).foldl
    (fun g1 dc =>
      (List.range need).foldl (fun g2 dr => Finset.erase g2 (row + dr, col + dc)) g1)
    g

/-- `gridToPixel(col, row)` from `part_001`. -/
def gridToPixel (env : Env) (col row : ℕ) : ℚ × ℚ :=
  let playAreaWidth := env.rectW - env.safeL - env.safeR
  let columnWidth := playAreaWidth / (GRID_COLUMNS : ℚ)
  (env.safeL + (col : ℚ) * columnWidth + (columnWidth - GRID_CELL_SIZE) / 2,
   (row : ℚ) * GRID_CELL_SIZE)

/-- `shootBulletInDirection()` from `part_001`: rate-limited by the 150 ms
cooldown; normalises the drag vector when an aim gesture of length ≥ 10 is in
progress (remembering it as the last direction), otherwise reuses the last
direction; pushes one bullet from the player's centre with speed
`BASE_BULLET_SPEED * bulletSpeedMultiplier` (`7 * mult`). -/
def shootBulletInDirection (env : Env) (s : GameState) : GameState :=
  if env.now - s.lastShot < 150 then s
  else
    let playerCenterX := env.playerX + 80 / 2
    let playerCenterY := env.playerY + 20 / 2
    let dx := s.aimCurrentX - s.aimStartX
    let dy := s.aimCurrentY - s.aimStartY
    let distance := env.sqrtD (dx * dx + dy * dy)
    let aimHit : Bool := s.isAiming && decide (10 ≤ distance)
    let dirX := if aimHit then dx / distance else s.lastDirX
    let dirY := if aimHit then dy / distance else s.lastDirY
    let bulletSpeed := 7 * s.bulletSpeedMultiplier
    { s with
      lastShot := env.now
      lastDirX := dirX
      lastDirY := dirY
      bullets := s.bullets ++
        [{ x := playerCenterX - 6 / 2, y := playerCenterY - 6 / 2,
           width := 6, height := 6,
           vx := dirX * bulletSpeed, vy := dirY * bulletSpeed,
           bounces := 0, damage := s.bulletDamage }] }

/-- `spawnBlock()` from `part_001`: rate-limited by `currentSpawnInterval`;
spawns one LARGE block (`hp = level * 5`) at a grid placement, skipping
silently when the allocator finds no space; at level ≥ 3 a
`Math.random() < 0.3` roll (`env.roll2`) may add a second LARGE block 100 px
further above the visible area.  `k` indexes the supply of shuffled column
orders; each `findAvailableGridCell` call consumes one order. -/
def spawnBlock (env : Env) (k : ℕ) (s : GameState) : GameState × ℕ :=
  if ((env.now - s.lastBlockSpawn : ℤ) : ℚ) < s.currentSpawnInterval then (s, k)
  else
    let s := { s with lastBlockSpawn := env.now }
    let hp : ℤ := (s.level : ℤ) * 5
    match findAvailableGridCell s.grid (env.orders k) (tierSize .LARGE) with
    | none => (s, k + 1)
    | some gp =>
      let pos := gridToPixel env gp.col gp.row
      let s := { s with
        grid := occupyCells s.grid gp.row gp.col gp.cellsNeeded
        blocks := s.blocks ++
          [{ x := pos.1, y := pos.2 - tierSize .LARGE,
             width := tierSize .LARGE, height := tierSize .LARGE,
             hp := hp, maxHp := hp, size := .LARGE, isElite := false,
             speed := s.currentBlockSpeed,
             gridCol := gp.col, gridRow := gp.row, gridCells := gp.cellsNeeded }] }
      if 3 ≤ s.level ∧ env.roll2 then
        match findAvailableGridCell s.grid (env.orders (k + 1)) (tierSize .LARGE) with
        | none => (s, k + 2)
        | some gp2 =>
          let pos2 := gridToPixel env gp2.col gp2.row
          ({ s with
             grid := occupyCells s.grid gp2.row gp2.col gp2.cellsNeeded
             blocks := s.blocks ++
               [{ x := pos2.1, y := pos2.2 - tierSize .LARGE - 100,
                  width := tierSize .LARGE, height := tierSize .LARGE,
                  hp := hp, maxHp := hp, size := .LARGE, isElite := false,
                  speed := s.currentBlockSpeed,
                  gridCol := gp2.col, gridRow := gp2.row,
                  gridCells := gp2.cellsNeeded }] }, k + 2)
      else (s, k + 1)

/-- `spawnEliteBlock()` from `part_001`: elite size `80 + level * 10`, HP
`level * 10`, speed `currentBlockSpeed * 0.8`; skipped when the allocator
finds no space. -/
def spawnEliteBlock (env : Env) (k : ℕ) (s : GameState) : GameState × ℕ :=
  let eliteSize : ℚ := tierSize .LARGE + (s.level : ℚ) * 10
  let eliteHP : ℤ := (s.level : ℤ) * 10
  match findAvailableGridCell s.grid (env.orders k) eliteSize with
  | none => (s, k + 1)
  | some gp =>
    let pos := gridToPixel env gp.col gp.row
    ({ s with
       grid := occupyCells s.grid gp.row gp.col gp.cellsNeeded
       blocks := s.blocks ++
         [{ x := pos.1, y := pos.2 - eliteSize,
            width := eliteSize, height := eliteSize,
            hp := eliteHP, maxHp := eliteHP, size := .ELITE, isElite := true,
            speed := s.currentBlockSpeed * (4 / 5),
            gridCol := gp.col, gridRow := gp.row,
            gridCells := gp.cellsNeeded }] }, k + 1)

/-- `levelUp()` from `part_001`: `level++`, `requiredKills += 5`, `kills = 0`,
pause for the upgrade menu, recompute `currentBlockSpeed`
(`BLOCK_SPEED * (1 + (level - 1) * 0.15)`, `BLOCK_SPEED = 0.4`) and
`currentSpawnInterval` (`max(500, 4000 * 0.9 ^ (level - 1))`), then spawn one
elite block. -/
def levelUp (env : Env) (k : ℕ) (s : GameState) : GameState × ℕ :=
  let s := { s with
    level := s.level + 1
    requiredKills := s.requiredKills + 5
    kills := 0
    gamePaused := true
    showUpgradeMenu := true }
  let s := { s with
    currentBlockSpeed := (2 / 5 : ℚ) * (1 + ((s.level : ℚ) - 1) * (3 / 20))
    currentSpawnInterval := max 500 ((4000 : ℚ) * (9 / 10 : ℚ) ^ (s.level - 1)) }
  spawnEliteBlock env k s

/-- The next-smaller tier a block splits into
(`newSize = block.size === 'LARGE' ? 'MEDIUM' : 'SMALL'`). -/
def splitTier (bl : Block) : Tier :=
  if bl.size = .LARGE then .MEDIUM else .SMALL

/-- One split child pushed by `splitBlock(block)` at placement `gp`:
next-smaller tier, `hp = maxHp = Math.ceil(block.maxHp / 2)`, and the
parent's `y` and `speed`. -/
def splitChild (env : Env) (bl : Block) (gp : GridPos) : Block :=
  { x := (gridToPixel env gp.col gp.row).1, y := bl.y,
    width := tierSize (splitTier bl), height := tierSize (splitTier bl),
    hp := ⌈(bl.maxHp : ℚ) / 2⌉, maxHp := ⌈(bl.maxHp : ℚ) / 2⌉,
    size := splitTier bl, isElite := false,
    speed := bl.speed,
    gridCol := gp.col, gridRow := gp.row, gridCells := gp.cellsNeeded }

/-- `splitBlock(block)` from `part_001`: a non-elite block splits into the
next-smaller tier; each of the two children is placed (and its cells
occupied) only when the allocator finds space for it. -/
def splitBlock (env : Env) (k : ℕ) (bl : Block) (s : GameState) : GameState × ℕ :=
  if bl.isElite then (s, k)
  else
    let childSize : ℚ := tierSize (splitTier bl)
    let s :=
      match findAvailableGridCell s.grid (env.orders k) childSize with
      | none => s
      | some gp =>
        { s with
          grid := occupyCells s.grid gp.row gp.col gp.cellsNeeded
          blocks := s.blocks ++ [splitChild env bl gp] }
    let s :=
      match findAvailableGridCell s.grid (env.orders (k + 1)) childSize with
      | none => s
      | some gp =>
        { s with
          grid := occupyCells s.grid gp.row gp.col gp.cellsNeeded
          blocks := s.blocks ++ [splitChild env bl gp] }
    (s, k + 2)

/-- `applyUpgrade(upgradeType)` from `part_001`: string-dispatched; any
unrecognised kind falls through all three branches, but the menu and pause
flags are cleared unconditionally. -/
def applyUpgrade (upgradeType : String) (s : GameState) : GameState :=
  let s :=
    if upgradeType = "damage" then { s with bulletDamage := s.bulletDamage + 1 }
    else if upgradeType = "speed" then
      { s with bulletSpeedMultiplier := s.bulletSpeedMultiplier + 1 / 50 }
    else if upgradeType = "bounce" then { s with maxBounces := s.maxBounces + 1 }
    else s
  { s with showUpgradeMenu := false, gamePaused := false }

/-- The state resets performed by `initGame()` in `part_001` (the canvas and
event-listener wiring is outside the simulation core).  Note `initGame` does
not touch `lastShot`, `lastBlockSpawn`, or the grid occupancy set. -/
def initGame (s : GameState) : GameState :=
  { s with
    gameRunning := true, gameOver := false, gamePaused := false,
    showUpgradeMenu := false,
    score := 0, kills := 0, requiredKills := 10, level := 1,
    bulletDamage := 1, bulletSpeedMultiplier := 1, maxBounces := 0,
    bullets := [], blocks := [],
    currentBlockSpeed := 2 / 5, currentSpawnInterval := 4000,
    isAiming := false,
    aimStartX := 0, aimStartY := 0, aimCurrentX := 0, aimCurrentY := 0,
    lastDirX := 0, lastDirY := -1 }

/-- `resetGameState()` from `src/state.js`: the full reset, including
`clearGrid()`, `lastShot`, and `lastBlockSpawn`.  No code in the repository
calls it; the game-over restart path calls `initGame` instead. -/
def resetGameState (s : GameState) : GameState :=
  { s with
    gameRunning := true, gameOver := false, gamePaused := false,
    showUpgradeMenu := false,
    score := 0, kills := 0, requiredKills := 10, level := 1,
    bulletDamage := 1, bulletSpeedMultiplier := 1, maxBounces := 0,
    bullets := [], blocks := [], grid := ∅,
    currentBlockSpeed := 2 / 5, currentSpawnInterval := 4000,
    isAiming := false,
    aimStartX := 0, aimStartY := 0, aimCurrentX := 0, aimCurrentY := 0,
    lastDirX := 0, lastDirY := -1,
    lastShot := 0, lastBlockSpawn := 0 }

/-- The movement and wall-reflection part of one iteration of the bullet
update loop in `update()`: integrate position, then reflect off the
left/right and top/bottom canvas walls, each wall contact clamping the
position and counting one bounce. -/
def wallBounce (env : Env) (b : Bullet) : Bullet :=
  let b := { b with x := b.x + b.vx, y := b.y + b.vy }
  let b :=
    if b.x ≤ 0 ∨ env.rectW ≤ b.x + b.width then
      { b with vx := -b.vx, x := max 0 (min (env.rectW - b.width) b.x),
               bounces := b.bounces + 1 }
    else b
  if b.y ≤ 0 ∨ env.rectH ≤ b.y + b.height then
    { b with vy := -b.vy, y := max 0 (min (env.rectH - b.height) b.y),
             bounces := b.bounces + 1 }
  else b

/-- One full iteration of the bullet update loop: `wallBounce`, then drop
the bullet if `bounces > maxBounces`.  The loop iterates the array downward
with in-place `splice`, and each iteration touches only its own bullet, so
the whole loop is `List.filterMap` of this step. -/
def bulletWallStep (env : Env) (maxB : ℕ) (b : Bullet) : Option Bullet :=
  let b := wallBounce env b
  if maxB < b.bounces then none else some b

/-- One iteration of the block update loop in `update()`: move the block down
by `block.speed || currentBlockSpeed` (JS `||`: the fallback applies when the
field is `0`), free its grid cells once it passes the spawn zone
(`10 * GRID_CELL_SIZE`, guarded by the `gridFreed` flag), and report whether
it crossed the bottom boundary (`y > rect.height`, which game-overs the
frame). -/
def moveBlockStep (env : Env) (spd : ℚ) (b : Block) (g : Finset (ℕ × ℕ)) :
    Block × Finset (ℕ × ℕ) × Bool :=
  let b := { b with y := b.y + (if b.speed = 0 then spd else b.speed) }
  if ¬b.gridFreed ∧ 10 * GRID_CELL_SIZE < b.y then
    ({ b with gridFreed := true }, freeCells g b.gridRow b.gridCol b.gridCells,
     decide (env.rectH < b.y))
  else (b, g, decide (env.rectH < b.y))

/-- The block update loop, which iterates the array downward (last index
first) and exits `update()` as soon as one block crosses the bottom; the
argument list is the block array reversed, so the head is processed first
and blocks after an early exit keep their pre-frame state. -/
def moveBlocksRev (env : Env) (spd : ℚ) :
    List Block → Finset (ℕ × ℕ) → List Block × Finset (ℕ × ℕ) × Bool
  | [], g => ([], g, false)
  | b :: rest, g =>
    let r := moveBlockStep env spd b g
    if r.2.2 then (r.1 :: rest, r.2.1, true)
    else
      let rr := moveBlocksRev env spd rest r.2.1
      (r.1 :: rr.1, rr.2.1, rr.2.2)

/-- `checkCubeCollision(bullet, block)` from `part_001` (AABB overlap). -/
def checkCubeCollision (bu : Bullet) (bl : Block) : Bool :=
  decide (bu.x < bl.x + bl.width) && decide (bl.x < bu.x + bu.width) &&
  decide (bu.y < bl.y + bl.height) && decide (bl.y < bu.y + bu.height)

/-- The reflection computation of the collision handler in `update()`:
determine the struck side from the corner-to-corner diagonal comparison
(`crossWidth`/`crossHeight`) and force the perpendicular velocity component
away from the block. -/
def reflectBullet (bu : Bullet) (bl : Block) : Bullet :=
  let dx := (bu.x + bu.width / 2) - (bl.x + bl.width / 2)
  let dy := (bu.y + bu.height / 2) - (bl.y + bl.height / 2)
  let w := (bu.width + bl.width) / 2
  let h := (bu.height + bl.height) / 2
  let crossWidth := w * dy
  let crossHeight := h * dx
  if |dx| ≤ w ∧ |dy| ≤ h then
    if crossHeight < crossWidth then
      if -crossHeight < crossWidth then { bu with vy := |bu.vy| }
      else { bu with vx := -|bu.vx| }
    else
      if -crossHeight < crossWidth then { bu with vx := |bu.vx| }
      else { bu with vy := -|bu.vy| }
  else bu

/-- Split a list at the last element satisfying `p` (the block scan in the
collision pass runs from the last index down and stops at the first hit):
`some (pre, x, post)` with the original list `pre ++ x :: post` and `x` the
last satisfying element, or `none`. -/
def splitAtLast (p : α → Bool) : List α → Option (List α × α × List α)
  | [] => none
  | a :: rest =>
    match splitAtLast p rest with
    | some (pre, x, post) => some (a :: pre, x, post)
    | none => if p a then some ([], a, rest) else none

/-- The tier score awarded on a kill (`ELITE = 100`, `LARGE = 30`,
`MEDIUM = 20`, otherwise `10`). -/
def scoreFor (bl : Block) : ℤ :=
  if bl.isElite then 100
  else if bl.size = Tier.LARGE then 30
  else if bl.size = Tier.MEDIUM then 20
  else 10

/-- The `if (block.hp <= 0)` body of the collision handler in `update()`,
after the block's cells have been freed and the block spliced out of the
array: count a kill (and possibly level up) when the block is SMALL or
elite, split it when it is neither, then award tier score. -/
def handleDeadBlock (env : Env) (k : ℕ) (bl : Block) (s : GameState) :
    GameState × ℕ :=
  let countsAsKill : Bool := bl.size = Tier.SMALL || bl.isElite
  let r1 :=
    if countsAsKill then
      let s := { s with kills := s.kills + 1 }
      if s.requiredKills ≤ s.kills then levelUp env k s else (s, k)
    else (s, k)
  let r2 :=
    if bl.size ≠ Tier.SMALL ∧ bl.isElite = false then splitBlock env r1.2 bl r1.1
    else r1
  ({ r2.1 with score := r2.1.score + scoreFor bl }, r2.2)

/-- One iteration of the outer collision loop in `update()` for the bullet
`bu`: scan the block array from the last index down for the first AABB
overlap.  On a hit: damage the block, reflect the bullet and count one
bounce; if the block's HP drops to ≤ 0, free its cells (note: with no
`gridFreed` guard), remove it and run `handleDeadBlock`; finally drop the
bullet if it exceeded `maxBounces`.  At most one hit is resolved per bullet
(`break`).  `maxBounces` never changes during a frame, so it is passed as
the fixed `maxB`. -/
def collideOne (env : Env) (maxB : ℕ) (bu : Bullet) (s : GameState) (k : ℕ) :
    Option Bullet × GameState × ℕ :=
  match splitAtLast (checkCubeCollision bu) s.blocks with
  | none => (some bu, s, k)
  | some (pre, bl, post) =>
    let bl' := { bl with hp := bl.hp - bu.damage }
    let bu' := { reflectBullet bu bl' with bounces := bu.bounces + 1 }
    if bl'.hp ≤ 0 then
      let r := handleDeadBlock env k bl'
        { s with
          grid := freeCells s.grid bl'.gridRow bl'.gridCol bl'.gridCells
          blocks := pre ++ post }
      if maxB < bu'.bounces then (none, r.1, r.2) else (some bu', r.1, r.2)
    else
      let s := { s with blocks := pre ++ bl' :: post }
      if maxB < bu'.bounces then (none, s, k) else (some bu', s, k)

/-- The outer collision loop, iterating the bullet array downward (last index
first); the argument is the bullet array reversed, the returned kept-bullet
list is in the same reversed order. -/
def collideAllRev (env : Env) (maxB : ℕ) :
    List Bullet → GameState → ℕ → List Bullet × GameState × ℕ
  | [], s, k => ([], s, k)
  | bu :: rest, s, k =>
    let r := collideOne env maxB bu s k
    let rr := collideAllRev env maxB rest r.2.1 r.2.2
    (match r.1 with
     | some b => b :: rr.1
     | none => rr.1, rr.2.1, rr.2.2)

/-- The body of `update()` past the over/paused guard: fire, spawn, advance
and wall-bounce bullets, advance blocks (returning early with `gameOver`
when a block crosses the bottom), then resolve bullet–block collisions. -/
def updateCore (env : Env) (s : GameState) : GameState :=
  let s := shootBulletInDirection env s
  let sp := spawnBlock env 0 s
  let s := sp.1
  let s := { s with bullets := s.bullets.filterMap (bulletWallStep env s.maxBounces) }
  let mv := moveBlocksRev env s.currentBlockSpeed s.blocks.reverse s.grid
  let s := { s with blocks := mv.1.reverse, grid := mv.2.1 }
  if mv.2.2 then { s with gameOver := true }
  else
    let r := collideAllRev env s.maxBounces s.bullets.reverse s sp.2
    { r.2.1 with bullets := r.1.reverse }

/-- `update()` from `part_001`: no-op when the game is over or paused,
otherwise `updateCore`. -/
def update (env : Env) (s : GameState) : GameState :=
  if s.gameOver || s.gamePaused then s
  else updateCore env s

/-! ## Concrete fixtures for witnesses and counterexamples -/

/-- A baseline environment: a 400×800 canvas without safe-area insets, clock
at 0, identity-free oracle values. -/
def env0 : Env :=
  { now := 0, rectW := 400, rectH := 800, safeL := 0, safeR := 0,
    playerX := 160, playerY := 700, sqrtD := fun _ => 0,
    orders := fun _ => List.range 8, roll2 := false }

/-- The state right after `initGame` on a fresh load (empty collections,
baseline progression). -/
def freshState : GameState :=
  { gameRunning := true, gameOver := false, gamePaused := false,
    showUpgradeMenu := false, score := 0, kills := 0, requiredKills := 10,
    level := 1, bulletDamage := 1, bulletSpeedMultiplier := 1, maxBounces := 0,
    bullets := [], blocks := [], grid := ∅,
    currentBlockSpeed := 2 / 5, currentSpawnInterval := 4000,
    lastShot := 0, lastBlockSpawn := 0, isAiming := false,
    aimStartX := 0, aimStartY := 0, aimCurrentX := 0, aimCurrentY := 0,
    lastDirX := 0, lastDirY := -1 }

/-- A stationary test bullet hanging mid-air at (50, 50). -/
def probeBullet : Bullet :=
  { x := 50, y := 50, width := 6, height := 6, vx := 0, vy := 0,
    bounces := 0, damage := 1 }

/-! ## C9 — frame update is a no-op when over or paused -/

/-- C9: when the game-over flag or the pause flag is set, `update` returns
the state unchanged — in particular the projectile and enemy collections,
grid occupancy, score, kill tally, required kills, level, and all upgrade
levels are untouched. -/
theorem update_noop_when_over_or_paused (env : Env) (s : GameState)
    (h : s.gameOver = true ∨ s.gamePaused = true) : update env s = s := by
  unfold update
  rcases h with h | h <;> simp [h]

/-- Witness for C9 at a concrete paused state. -/
theorem update_noop_when_over_or_paused_witness :
    update env0 { freshState with gamePaused := true } =
      { freshState with gamePaused := true } :=
  update_noop_when_over_or_paused env0 _ (Or.inr rfl)

/-! ## C10 — unknown upgrade kinds apply nothing but still resume play -/

/-- C10: `applyUpgrade` with a kind outside `{damage, speed, bounce}` leaves
every upgrade level unchanged, yet still clears the upgrade-menu and pause
flags. -/
theorem applyUpgrade_unknown_kind_noop (t : String) (s : GameState)
    (h1 : t ≠ "damage") (h2 : t ≠ "speed") (h3 : t ≠ "bounce") :
    (applyUpgrade t s).bulletDamage = s.bulletDamage ∧
    (applyUpgrade t s).bulletSpeedMultiplier = s.bulletSpeedMultiplier ∧
    (applyUpgrade t s).maxBounces = s.maxBounces ∧
    (applyUpgrade t s).showUpgradeMenu = false ∧
    (applyUpgrade t s).gamePaused = false := by
  simp [applyUpgrade, h1, h2, h3]

/-- Witness for C10 with the unrecognised kind `"heal"`. -/
theorem applyUpgrade_unknown_kind_noop_witness :
    (applyUpgrade "heal" freshState).bulletDamage = freshState.bulletDamage ∧
    (applyUpgrade "heal" freshState).bulletSpeedMultiplier =
      freshState.bulletSpeedMultiplier ∧
    (applyUpgrade "heal" freshState).maxBounces = freshState.maxBounces ∧
    (applyUpgrade "heal" freshState).showUpgradeMenu = false ∧
    (applyUpgrade "heal" freshState).gamePaused = false :=
  applyUpgrade_unknown_kind_noop "heal" freshState
    (by decide) (by decide) (by decide)

/-! ## C8 — restart after game over does not clear the grid occupancy set

The game-over restart path (the canvas `click` handler in `part_001`) calls
`initGame()`, which resets score, kills, level, upgrades and the entity
arrays, but never clears `gridOccupied`; `resetGameState()` in `state.js`
— which does call `clearGrid()` — has no caller anywhere in the repository.
Cells occupied at the moment of game over therefore stay occupied into the
next run (and nothing will ever free them, since the block array is
cleared). -/

/-- A game-over state reached with cell (0,0) still occupied. -/
def gameOverState : GameState :=
  { freshState with
    gameOver := true, score := 120, kills := 7,
    requiredKills := 15, level := 3, bulletDamage := 2, maxBounces := 1,
    grid := ({(0, 0)} : Finset (ℕ × ℕ)) }

/-- C8 (code bug): restarting via `initGame` resets score, kills, required
kills, level, upgrades and the collections, but leaves the occupied cell in
the grid; the unused `resetGameState` would have cleared it. -/
theorem restart_initGame_leaves_grid_occupied :
    (initGame gameOverState).score = 0 ∧
    (initGame gameOverState).kills = 0 ∧
    (initGame gameOverState).requiredKills = 10 ∧
    (initGame gameOverState).level = 1 ∧
    (initGame gameOverState).bulletDamage = 1 ∧
    (initGame gameOverState).bulletSpeedMultiplier = 1 ∧
    (initGame gameOverState).maxBounces = 0 ∧
    (initGame gameOverState).bullets = [] ∧
    (initGame gameOverState).blocks = [] ∧
    (initGame gameOverState).grid = {(0, 0)} ∧
    (resetGameState gameOverState).grid = ∅ := by
  with_unfolding_all decide

/-! ## C7 — the kill path frees grid cells without the `gridFreed` guard

The scroll-past-the-spawn-zone path sets `block.gridFreed = true` precisely
"to avoid freeing multiple times", but the kill path in the collision pass
frees `block`'s cells whenever `block.gridCells !== undefined`, with no
`gridFreed` check.  A block destroyed after passing the spawn zone therefore
has its cells freed a second time — and by then the same `(row, col)` keys
may belong to a newly spawned enemy, whose reservation is wrongly erased. -/

/-- A block that already scrolled past the spawn zone (cells freed once,
`gridFreed = true`), back at the top of its old footprint coordinates. -/
def freedBlock : Block :=
  { x := 48, y := 48, width := 40, height := 40, hp := 1, maxHp := 1,
    size := .SMALL, isElite := false, speed := 1,
    gridCol := 0, gridRow := 0, gridCells := 1, gridFreed := true }

/-- State where cell (0,0) — already freed for `freedBlock` — is occupied
again (by a later spawn), and a bullet is about to destroy `freedBlock`. -/
def doubleFreeState : GameState :=
  { freshState with
    bullets := [probeBullet], blocks := [freedBlock],
    grid := ({(0, 0)} : Finset (ℕ × ℕ)) }

/-- C7 (code bug): destroying a block whose `gridFreed` flag is already set
frees its cells again — the occupied cell (0,0) disappears from the grid
even though `freedBlock`'s cells were already freed when it left the spawn
zone. -/
theorem kill_path_frees_cells_despite_gridFreed :
    freedBlock.gridFreed = true ∧
    doubleFreeState.grid = {(0, 0)} ∧
    (update env0 doubleFreeState).blocks = [] ∧
    (update env0 doubleFreeState).grid = ∅ := by
  with_unfolding_all decide

/-! ## C5 — the level-up transition

`levelUp` performs the progression changes unconditionally, but the elite
spawn goes through the grid allocator and is silently skipped when no free
block exists, so "exactly one elite enemy is spawned" does not hold on a
full grid; the amended statement makes the spawn conditional on the
allocator finding space. -/

/-- C5 (amended): the level-up transition increments the level, raises the
required-kills threshold by 5, resets the kill tally, pauses for the upgrade
menu, recomputes `currentBlockSpeed = 0.4 * (1 + (level-1) * 0.15)` and
`currentSpawnInterval = max(500, 4000 * 0.9^(level-1))` for the new level,
and spawns exactly one elite enemy with `HP = level * 10` and speed 0.8 ×
the new block speed — provided the grid allocator finds space for it,
otherwise the elite spawn is skipped and the enemy collection is
unchanged. -/
theorem levelUp_transition (env : Env) (k : ℕ) (s : GameState) :
    (levelUp env k s).1.level = s.level + 1 ∧
    (levelUp env k s).1.requiredKills = s.requiredKills + 5 ∧
    (levelUp env k s).1.kills = 0 ∧
    (levelUp env k s).1.gamePaused = true ∧
    (levelUp env k s).1.showUpgradeMenu = true ∧
    (levelUp env k s).1.currentBlockSpeed
      = (2 / 5 : ℚ) * (1 + (((s.level : ℚ) + 1) - 1) * (3 / 20)) ∧
    (levelUp env k s).1.currentSpawnInterval
      = max 500 ((4000 : ℚ) * (9 / 10 : ℚ) ^ s.level) ∧
    (findAvailableGridCell s.grid (env.orders k)
        (tierSize Tier.LARGE + ((s.level : ℚ) + 1) * 10) = none →
      (levelUp env k s).1.blocks = s.blocks) ∧
    (∀ gp, findAvailableGridCell s.grid (env.orders k)
        (tierSize Tier.LARGE + ((s.level : ℚ) + 1) * 10) = some gp →
      ∃ e, (levelUp env k s).1.blocks = s.blocks ++ [e] ∧
        e.hp = ((s.level : ℤ) + 1) * 10 ∧
        e.maxHp = ((s.level : ℤ) + 1) * 10 ∧
        e.isElite = true ∧ e.size = Tier.ELITE ∧
        e.speed = (levelUp env k s).1.currentBlockSpeed * (4 / 5)) := by
  unfold levelUp spawnEliteBlock
  cases h : findAvailableGridCell s.grid (env.orders k)
      (tierSize Tier.LARGE + ((s.level : ℚ) + 1) * 10) with
  | none =>
    simp [h, Nat.cast_add, Nat.cast_one]
  | some gp =>
    simp [h, Nat.cast_add, Nat.cast_one]

/-- State at the moment the kill threshold is reached at level 1, with the
whole spawn-search window of the grid occupied (rows 0–6, all 8 columns):
the level-2 elite needs a 3×3 block, which the allocator cannot place. -/
def thresholdFullGridState : GameState :=
  { freshState with
    kills := 10
    requiredKills := 10
    grid := Finset.range 7 ×ˢ Finset.range 8 }

/-- Counterexample to C5 as stated: at the kill threshold with a full grid,
the level-up transition runs (level 2, required kills 15, tally reset) but
no elite enemy is spawned at all — the enemy collection stays empty,
refuting "exactly one elite enemy is spawned". -/
theorem levelUp_full_grid_spawns_no_elite :
    thresholdFullGridState.kills = thresholdFullGridState.requiredKills ∧
    (levelUp env0 0 thresholdFullGridState).1.level = 2 ∧
    (levelUp env0 0 thresholdFullGridState).1.requiredKills = 15 ∧
    (levelUp env0 0 thresholdFullGridState).1.kills = 0 ∧
    (levelUp env0 0 thresholdFullGridState).1.blocks = [] := by
  with_unfolding_all decide

/-- The spec's scenario state: level 1, kill tally at the threshold 10,
empty grid. -/
def preLevelUpState : GameState := { freshState with kills := 10 }

/-- Witness for C5: on the spec's scenario (10 kills at level 1, free grid)
the transition yields level 2, required kills 15, tally 0 and one elite with
HP 20. -/
theorem levelUp_transition_witness :
    (levelUp env0 0 preLevelUpState).1.level = 2 ∧
    (levelUp env0 0 preLevelUpState).1.requiredKills = 15 ∧
    (levelUp env0 0 preLevelUpState).1.kills = 0 ∧
    ∃ e, (levelUp env0 0 preLevelUpState).1.blocks = [e] ∧ e.hp = 20 := by
  obtain ⟨h1, h2, h3, _, _, _, _, _, hsome⟩ := levelUp_transition env0 0 preLevelUpState
  obtain ⟨e, he, hhp, _⟩ := hsome ⟨0, 0, 3⟩ (by with_unfolding_all decide)
  refine ⟨by simpa [preLevelUpState, freshState] using h1,
          by simpa [preLevelUpState, freshState] using h2, h3, e,
          by simpa [preLevelUpState, freshState] using he,
          by simp [preLevelUpState, freshState] at hhp; norm_num [hhp]⟩

/-! ## C3 — splitting on a qualifying kill

A destroyed non-SMALL, non-elite block triggers exactly one `splitBlock`
call, but each of the two children goes through the grid allocator and is
skipped when no free block exists, so "producing two children" does not hold
on a full grid; the amended statement makes each child's creation
conditional on the allocator finding space. -/

/-- `2 ⌈m/2⌉` differs from `m` by at most 1 (the ceiling-rounding bound
behind the split-HP conservation property). -/
theorem abs_two_ceil_half_sub_le (m : ℤ) : |2 * ⌈(m : ℚ) / 2⌉ - m| ≤ 1 := by
  have h1 := Int.le_ceil ((m : ℚ) / 2)
  have h2 := Int.ceil_lt_add_one ((m : ℚ) / 2)
  rw [abs_le]
  constructor
  · have hq : (m : ℚ) ≤ 2 * (⌈(m : ℚ) / 2⌉ : ℚ) := by linarith
    have hz : m ≤ 2 * ⌈(m : ℚ) / 2⌉ := by exact_mod_cast hq
    omega
  · have hq : (2 : ℚ) * (⌈(m : ℚ) / 2⌉ : ℚ) < m + 2 := by linarith
    have hz : 2 * ⌈(m : ℚ) / 2⌉ < m + 2 := by exact_mod_cast hq
    omega

/-- `splitBlock` on a non-elite block appends at most two children to the
block list, every appended child has the next-smaller tier, HP and max HP
`⌈maxHp/2⌉`, the parent's speed, and is not elite; when both children are
placed their total HP is within 1 of the parent's max HP. -/
theorem splitBlock_children (env : Env) (k : ℕ) (bl : Block) (s : GameState)
    (helite : bl.isElite = false) :
    ∃ children : List Block,
      (splitBlock env k bl s).1.blocks = s.blocks ++ children ∧
      children.length ≤ 2 ∧
      (∀ c ∈ children,
        c.size = splitTier bl ∧
        c.hp = ⌈(bl.maxHp : ℚ) / 2⌉ ∧ c.maxHp = ⌈(bl.maxHp : ℚ) / 2⌉ ∧
        c.speed = bl.speed ∧ c.isElite = false) ∧
      (children.length = 2 →
        |((children.map Block.hp).sum) - bl.maxHp| ≤ 1) := by
  cases h1 : findAvailableGridCell s.grid (env.orders k) (tierSize (splitTier bl)) with
  | none =>
    cases h2 : findAvailableGridCell s.grid (env.orders (k + 1)) (tierSize (splitTier bl)) with
    | none =>
      have hb : (splitBlock env k bl s).1.blocks = s.blocks := by
        simp [splitBlock, helite, h1, h2]
      exact ⟨[], by simp [hb], by simp, by simp, by simp⟩
    | some gp2 =>
      have hb : (splitBlock env k bl s).1.blocks
          = s.blocks ++ [splitChild env bl gp2] := by
        simp [splitBlock, helite, h1, h2]
      refine ⟨[splitChild env bl gp2], hb, by simp, ?_, by simp⟩
      intro c hc
      simp at hc
      subst hc
      simp [splitChild]
  | some gp1 =>
    cases h2 : findAvailableGridCell
        (occupyCells s.grid gp1.row gp1.col gp1.cellsNeeded) (env.orders (k + 1))
        (tierSize (splitTier bl)) with
    | none =>
      have hb : (splitBlock env k bl s).1.blocks
          = s.blocks ++ [splitChild env bl gp1] := by
        simp [splitBlock, helite, h1, h2]
      refine ⟨[splitChild env bl gp1], hb, by simp, ?_, by simp⟩
      intro c hc
      simp at hc
      subst hc
      simp [splitChild]
    | some gp2 =>
      have hb : (splitBlock env k bl s).1.blocks
          = s.blocks ++ [splitChild env bl gp1, splitChild env bl gp2] := by
        simp [splitBlock, helite, h1, h2]
      refine ⟨[splitChild env bl gp1, splitChild env bl gp2], hb, by simp, ?_, ?_⟩
      · intro c hc
        simp at hc
        rcases hc with hc | hc <;> subst hc <;> simp [splitChild]
      · intro _
        simp only [List.map_cons, List.map_nil, List.sum_cons, List.sum_nil, splitChild]
        have h := abs_two_ceil_half_sub_le bl.maxHp
        rw [two_mul] at h
        simpa [add_assoc] using h

/-- For a block that is neither SMALL nor elite, `handleDeadBlock` takes the
split path: no kill is counted and the resulting block list is exactly that
of the single `splitBlock` call. -/
theorem handleDeadBlock_split_path (env : Env) (k : ℕ) (bl : Block)
    (s : GameState) (hsize : bl.size ≠ Tier.SMALL) (helite : bl.isElite = false) :
    (handleDeadBlock env k bl s).1.blocks = (splitBlock env k bl s).1.blocks := by
  simp [handleDeadBlock, hsize, helite]

/-- C3 (amended): when a collision destroys a block that is neither SMALL
nor elite, splitting is attempted exactly once for that kill: the resulting
block list is the old list minus the parent plus one batch of at most two
children, each created child has the next-smaller tier
(LARGE → MEDIUM, MEDIUM → SMALL), HP = ⌈parent max HP / 2⌉ and the parent's
speed — a child is only created when the grid allocator finds space for it —
and when both children are created the sum of their HP differs from the
parent's max HP by at most 1. -/
theorem qualifying_kill_splits_once (env : Env) (maxB k : ℕ) (bu : Bullet)
    (s : GameState) (pre post : List Block) (bl : Block)
    (hsplit : splitAtLast (checkCubeCollision bu) s.blocks = some (pre, bl, post))
    (hdead : bl.hp - bu.damage ≤ 0)
    (hsize : bl.size ≠ Tier.SMALL) (helite : bl.isElite = false) :
    ∃ children : List Block,
      (collideOne env maxB bu s k).2.1.blocks = (pre ++ post) ++ children ∧
      children.length ≤ 2 ∧
      (∀ c ∈ children, c.size = splitTier bl ∧ c.hp = ⌈(bl.maxHp : ℚ) / 2⌉ ∧
        c.maxHp = ⌈(bl.maxHp : ℚ) / 2⌉ ∧ c.speed = bl.speed ∧ c.isElite = false) ∧
      (children.length = 2 → |((children.map Block.hp).sum) - bl.maxHp| ≤ 1) := by
  obtain ⟨children, hb, hlen, hprops, hsum⟩ :=
    splitBlock_children env k { bl with hp := bl.hp - bu.damage }
      { s with
        grid := freeCells s.grid bl.gridRow bl.gridCol bl.gridCells
        blocks := pre ++ post }
      (by simpa using helite)
  refine ⟨children, ?_, hlen, ?_, ?_⟩
  · unfold collideOne
    rw [hsplit]
    have hc : ({ bl with hp := bl.hp - bu.damage } : Block).hp ≤ 0 := by simpa using hdead
    have hpath := handleDeadBlock_split_path env k { bl with hp := bl.hp - bu.damage }
      { s with
        grid := freeCells s.grid bl.gridRow bl.gridCol bl.gridCells
        blocks := pre ++ post }
      (by simpa using hsize) (by simpa using helite)
    simp only [hc, if_true]
    by_cases hbb : maxB < bu.bounces + 1 <;>
      simp only [hbb, if_true, if_false, ite_true, ite_false] <;>
      simp [hpath, hb]
  · intro c hc
    have h := hprops c hc
    simpa [splitTier] using h
  · intro h2
    have h := hsum h2
    simpa using h

/-- A LARGE block about to die (HP 1, max HP 5), whose own grid footprint
lies at rows 20–21 — outside the rows the allocator searches. -/
def largeDoomedBlock : Block :=
  { x := 48, y := 48, width := 80, height := 80, hp := 1, maxHp := 5,
    size := .LARGE, isElite := false, speed := 1,
    gridCol := 0, gridRow := 20, gridCells := 2 }

/-- State in which `largeDoomedBlock` is about to be destroyed while the
allocator's whole search window (rows 0–5, all 8 columns) is occupied. -/
def fullGridKillState : GameState :=
  { freshState with
    bullets := [probeBullet]
    blocks := [largeDoomedBlock]
    grid := (Finset.range 6 ×ˢ Finset.range 8) ∪
      ({(20, 0), (20, 1), (21, 0), (21, 1)} : Finset (ℕ × ℕ)) }

set_option maxRecDepth 4000 in
/-- Counterexample to C3 as stated: destroying a LARGE, non-elite block with
a full grid produces zero children — the block list is empty after the frame
even though the kill happened (score 30 was awarded), refuting "producing
two children of the next-smaller tier". -/
theorem large_kill_full_grid_no_children :
    largeDoomedBlock.size = Tier.LARGE ∧
    largeDoomedBlock.isElite = false ∧
    (update env0 fullGridKillState).score = 30 ∧
    (update env0 fullGridKillState).blocks = [] := by
  with_unfolding_all decide

/-- The spec's scenario parent: a LARGE block with max HP 5 on its last
hit point. -/
def splitParent : Block :=
  { x := 48, y := 48, width := 80, height := 80, hp := 1, maxHp := 5,
    size := .LARGE, isElite := false, speed := 1,
    gridCol := 0, gridRow := 0, gridCells := 2 }

/-- State for the split witness: empty grid, one bullet overlapping
`splitParent`. -/
def splitParentState : GameState :=
  { freshState with bullets := [probeBullet], blocks := [splitParent] }

/-- Witness for C3 on the spec's scenario (LARGE parent with max HP 5 killed
over a free grid): the split children carry HP ⌈5/2⌉ = 3 each. -/
theorem qualifying_kill_splits_once_witness :
    ∃ children : List Block,
      (collideOne env0 0 probeBullet splitParentState 0).2.1.blocks
        = ([] ++ []) ++ children ∧
      children.length ≤ 2 ∧
      (∀ c ∈ children, c.size = splitTier splitParent ∧
        c.hp = ⌈(splitParent.maxHp : ℚ) / 2⌉ ∧
        c.maxHp = ⌈(splitParent.maxHp : ℚ) / 2⌉ ∧
        c.speed = splitParent.speed ∧ c.isElite = false) ∧
      (children.length = 2 →
        |((children.map Block.hp).sum) - splitParent.maxHp| ≤ 1) :=
  qualifying_kill_splits_once env0 0 0 probeBullet splitParentState [] [] splitParent
    (by with_unfolding_all decide) (by decide) (by decide) (by decide)

/-! ## C4 — kill tally, C6 — grid allocator -/


/-- `spawnEliteBlock` only touches the block list and the grid. -/
theorem spawnEliteBlock_fields (env : Env) (k : ℕ) (s : GameState) :
    (spawnEliteBlock env k s).1.kills = s.kills ∧
    (spawnEliteBlock env k s).1.level = s.level ∧
    (spawnEliteBlock env k s).1.requiredKills = s.requiredKills ∧
    (spawnEliteBlock env k s).1.maxBounces = s.maxBounces ∧
    (spawnEliteBlock env k s).1.bullets = s.bullets := by
  cases h : findAvailableGridCell s.grid (env.orders k)
      (tierSize Tier.LARGE + (s.level : ℚ) * 10) with
  | none => simp [spawnEliteBlock, h]
  | some gp => simp [spawnEliteBlock, h]

/-- `splitBlock` only touches the block list and the grid. -/
theorem splitBlock_fields (env : Env) (k : ℕ) (bl : Block) (s : GameState) :
    (splitBlock env k bl s).1.kills = s.kills ∧
    (splitBlock env k bl s).1.level = s.level ∧
    (splitBlock env k bl s).1.requiredKills = s.requiredKills ∧
    (splitBlock env k bl s).1.maxBounces = s.maxBounces ∧
    (splitBlock env k bl s).1.bullets = s.bullets := by
  by_cases hE : bl.isElite
  · simp [splitBlock, hE]
  · cases h1 : findAvailableGridCell s.grid (env.orders k) (tierSize (splitTier bl)) with
    | none =>
      cases h2 : findAvailableGridCell s.grid (env.orders (k + 1))
          (tierSize (splitTier bl)) with
      | none => simp [splitBlock, hE, h1, h2]
      | some gp2 => simp [splitBlock, hE, h1, h2]
    | some gp1 =>
      cases h2 : findAvailableGridCell
          (occupyCells s.grid gp1.row gp1.col gp1.cellsNeeded) (env.orders (k + 1))
          (tierSize (splitTier bl)) with
      | none => simp [splitBlock, hE, h1, h2]
      | some gp2 => simp [splitBlock, hE, h1, h2]

/-- Progression fields after `levelUp`, and the fields it never touches. -/
theorem levelUp_fields (env : Env) (k : ℕ) (s : GameState) :
    (levelUp env k s).1.kills = 0 ∧
    (levelUp env k s).1.level = s.level + 1 ∧
    (levelUp env k s).1.requiredKills = s.requiredKills + 5 ∧
    (levelUp env k s).1.maxBounces = s.maxBounces ∧
    (levelUp env k s).1.bullets = s.bullets := by
  unfold levelUp
  simp [spawnEliteBlock_fields]

/-- Kill accounting of the dead-block handler: a SMALL or elite block
increments the tally by one (below the threshold) or triggers the level-up
reset (at the threshold); a block that is neither leaves the tally
untouched. -/
theorem handleDeadBlock_kills (env : Env) (k : ℕ) (bl : Block) (s : GameState) :
    ((bl.size = Tier.SMALL ∨ bl.isElite = true) →
      (s.kills + 1 < s.requiredKills →
        (handleDeadBlock env k bl s).1.kills = s.kills + 1 ∧
        (handleDeadBlock env k bl s).1.level = s.level) ∧
      (s.requiredKills ≤ s.kills + 1 →
        (handleDeadBlock env k bl s).1.kills = 0 ∧
        (handleDeadBlock env k bl s).1.level = s.level + 1)) ∧
    ((bl.size ≠ Tier.SMALL ∧ bl.isElite = false) →
      (handleDeadBlock env k bl s).1.kills = s.kills ∧
      (handleDeadBlock env k bl s).1.level = s.level) := by
  constructor
  · intro hcnt
    constructor
    · intro hlt
      have hth : ¬ s.requiredKills ≤ s.kills + 1 := by omega
      rcases hcnt with h | h <;>
        simp [handleDeadBlock, h, hth, splitBlock_fields]
    · intro hth
      rcases hcnt with h | h <;>
        simp [handleDeadBlock, h, hth, levelUp_fields]
  · intro hne
    simp [handleDeadBlock, hne.1, hne.2, splitBlock_fields]

/-- When the struck block dies, the state component of `collideOne` is
exactly `handleDeadBlock` applied to the damaged block, with the block
removed from the list and its cells freed. -/
theorem collideOne_dead_state (env : Env) (maxB k : ℕ) (bu : Bullet)
    (s : GameState) (pre post : List Block) (bl : Block)
    (hsplit : splitAtLast (checkCubeCollision bu) s.blocks = some (pre, bl, post))
    (hdead : bl.hp - bu.damage ≤ 0) :
    (collideOne env maxB bu s k).2.1 =
      (handleDeadBlock env k { bl with hp := bl.hp - bu.damage }
        { s with
          grid := freeCells s.grid bl.gridRow bl.gridCol bl.gridCells
          blocks := pre ++ post }).1 := by
  unfold collideOne
  rw [hsplit]
  have hc : ({ bl with hp := bl.hp - bu.damage } : Block).hp ≤ 0 := by simpa using hdead
  simp only [hc, if_true]
  by_cases hbb : maxB < bu.bounces + 1 <;> simp [hbb]

/-- C4: when a collision destroys a block, the kill tally increments
exactly once if the block is SMALL or elite (with the documented reset to 0
when the increment reaches the required-kills threshold and the level-up
runs), and never increments when the destroyed block is a non-elite LARGE or
MEDIUM. -/
theorem kill_tally_on_destroy (env : Env) (maxB k : ℕ) (bu : Bullet)
    (s : GameState) (pre post : List Block) (bl : Block)
    (hsplit : splitAtLast (checkCubeCollision bu) s.blocks = some (pre, bl, post))
    (hdead : bl.hp - bu.damage ≤ 0) :
    ((bl.size = Tier.SMALL ∨ bl.isElite = true) →
      (s.kills + 1 < s.requiredKills →
        (collideOne env maxB bu s k).2.1.kills = s.kills + 1) ∧
      (s.requiredKills ≤ s.kills + 1 →
        (collideOne env maxB bu s k).2.1.kills = 0 ∧
        (collideOne env maxB bu s k).2.1.level = s.level + 1)) ∧
    ((bl.size ≠ Tier.SMALL ∧ bl.isElite = false) →
      (collideOne env maxB bu s k).2.1.kills = s.kills) := by
  rw [collideOne_dead_state env maxB k bu s pre post bl hsplit hdead]
  have h := handleDeadBlock_kills env k { bl with hp := bl.hp - bu.damage }
    { s with
      grid := freeCells s.grid bl.gridRow bl.gridCol bl.gridCells
      blocks := pre ++ post }
  simp only at h
  constructor
  · intro hcnt
    have h1 := h.1 (by simpa using hcnt)
    exact ⟨fun hlt => (h1.1 (by simpa using hlt)).1,
           fun hge => ⟨(h1.2 (by simpa using hge)).1, (h1.2 (by simpa using hge)).2⟩⟩
  · intro hne
    exact (h.2 (by simpa using hne)).1


/-- A SMALL block on its last hit point, overlapping `probeBullet`. -/
def smallTarget : Block :=
  { x := 48, y := 48, width := 40, height := 40, hp := 1, maxHp := 1,
    size := .SMALL, isElite := false, speed := 1,
    gridCol := 0, gridRow := 0, gridCells := 1 }

/-- State for the kill-tally witness. -/
def smallKillState : GameState :=
  { freshState with bullets := [probeBullet], blocks := [smallTarget] }

/-- Witness for C4: destroying a SMALL block below the threshold increments
the tally from 0 to 1. -/
theorem kill_tally_on_destroy_witness :
    (collideOne env0 0 probeBullet smallKillState 0).2.1.kills
      = smallKillState.kills + 1 :=
  ((kill_tally_on_destroy env0 0 0 probeBullet smallKillState [] [] smallTarget
      (by with_unfolding_all decide) (by decide)).1
    (Or.inl (by decide))).1 (by decide)

/-- C6: for any shuffled column order (a permutation of the 8 columns),
`findAvailableGridCell` computes `cellsNeeded = ceil(side / cellSize)` and
returns a placement in rows 0..4 whose `cellsNeeded x cellsNeeded` block is
entirely unoccupied and within the column bound; it returns the no-space
signal `none` exactly when no such fully-free block exists in the search
window; and on that signal `spawnBlock` skips the spawn, leaving the block
list unchanged. -/
theorem findAvailableGridCell_correct (g : Finset (ℕ × ℕ)) (order : List ℕ)
    (size : ℚ) (hperm : order.Perm (List.range GRID_COLUMNS)) :
    (∀ gp, findAvailableGridCell g order size = some gp →
      gp.cellsNeeded = cellsNeededFor size ∧ gp.row < 5 ∧
      blockFree g gp.row gp.col gp.cellsNeeded = true) ∧
    (findAvailableGridCell g order size = none ↔
      ∀ row < 5, ∀ col < GRID_COLUMNS,
        blockFree g row col (cellsNeededFor size) = false) ∧
    (∀ env k s, findAvailableGridCell s.grid (env.orders k) (tierSize Tier.LARGE) = none →
      (spawnBlock env k s).1.blocks = s.blocks) := by
  refine ⟨?_, ?_, ?_⟩
  · intro gp hgp
    unfold findAvailableGridCell at hgp
    rw [List.findSome?_eq_some_iff] at hgp
    obtain ⟨l1, row, l2, hl, hrow, -⟩ := hgp
    rw [List.findSome?_eq_some_iff] at hrow
    obtain ⟨m1, col, m2, hm, hcol, -⟩ := hrow
    by_cases hb : blockFree g row col (cellsNeededFor size)
    · rw [if_pos hb] at hcol
      cases hcol
      refine ⟨rfl, ?_, hb⟩
      have hmem : row ∈ List.range 5 := by rw [hl]; simp
      simpa using hmem
    · rw [if_neg hb] at hcol
      cases hcol
  · unfold findAvailableGridCell
    rw [List.findSome?_eq_none_iff]
    constructor
    · intro h row hrow col hcol
      have hrowmem : row ∈ List.range 5 := by simpa using hrow
      have h2 := h row hrowmem
      rw [List.findSome?_eq_none_iff] at h2
      have hcolmem : col ∈ order := by
        rw [hperm.mem_iff]
        simpa using hcol
      have h3 := h2 col hcolmem
      by_cases hb : blockFree g row col (cellsNeededFor size)
      · rw [if_pos hb] at h3
        cases h3
      · simpa using hb
    · intro h row hrowmem
      rw [List.findSome?_eq_none_iff]
      intro col hcolmem
      have hrow : row < 5 := by simpa using hrowmem
      have hcol : col < GRID_COLUMNS := by
        have hm := hperm.mem_iff.mp hcolmem
        simpa using hm
      rw [if_neg (by simp [h row hrow col hcol])]
  · intro env k s h
    by_cases ht : ((env.now : ℚ) - (s.lastBlockSpawn : ℚ)) < s.currentSpawnInterval
    · simp [spawnBlock, ht]
    · simp [spawnBlock, ht, h]

/-- Witness for C6 on a grid whose whole window is occupied. -/
theorem findAvailableGridCell_correct_witness :
    findAvailableGridCell (Finset.range 6 ×ˢ Finset.range 8) (List.range 8) 60 = none ∧
    ∀ row < 5, ∀ col < GRID_COLUMNS,
      blockFree (Finset.range 6 ×ˢ Finset.range 8) row col (cellsNeededFor 60) = false :=
  ⟨by with_unfolding_all decide,
   ((findAvailableGridCell_correct (Finset.range 6 ×ˢ Finset.range 8) (List.range 8) 60
       (List.Perm.refl _)).2.1).mp
     (by with_unfolding_all decide)⟩

/-! ## C1 — bullet bounce invariant, C2 — enemy HP invariant -/

/-- A bullet surviving the wall step has at most `maxBounces` bounces. -/
theorem bulletWallStep_bounces (env : Env) (maxB : ℕ) (b b' : Bullet)
    (h : bulletWallStep env maxB b = some b') : b'.bounces ≤ maxB := by
  unfold bulletWallStep at h
  by_cases hc : maxB < (wallBounce env b).bounces
  · simp [hc] at h
  · simp [hc] at h
    subst h
    omega

/-- `handleDeadBlock` never changes the max-bounces upgrade level. -/
theorem handleDeadBlock_maxBounces (env : Env) (k : ℕ) (bl : Block) (s : GameState) :
    (handleDeadBlock env k bl s).1.maxBounces = s.maxBounces := by
  unfold handleDeadBlock
  by_cases hc : (decide (bl.size = Tier.SMALL) || bl.isElite) = true <;>
    by_cases hth : s.requiredKills ≤ s.kills + 1 <;>
      by_cases hsp : bl.size ≠ Tier.SMALL ∧ bl.isElite = false <;>
        simp [hc, hth, hsp, levelUp_fields, splitBlock_fields]

/-- One collision resolution never changes the max-bounces upgrade level. -/
theorem collideOne_maxBounces (env : Env) (maxB k : ℕ) (bu : Bullet)
    (s : GameState) :
    (collideOne env maxB bu s k).2.1.maxBounces = s.maxBounces := by
  unfold collideOne
  cases h : splitAtLast (checkCubeCollision bu) s.blocks with
  | none => simp
  | some t =>
    obtain ⟨pre, bl, post⟩ := t
    by_cases hd : ({ bl with hp := bl.hp - bu.damage } : Block).hp ≤ 0 <;>
      by_cases hbb : maxB < bu.bounces + 1 <;>
        simp [hd, hbb, handleDeadBlock_maxBounces]

/-- A bullet kept by one collision resolution has at most `maxB` bounces
(provided it entered with at most `maxB`). -/
theorem collideOne_kept_bounces (env : Env) (maxB k : ℕ) (bu : Bullet)
    (s : GameState) (b' : Bullet) (hin : bu.bounces ≤ maxB)
    (h : (collideOne env maxB bu s k).1 = some b') : b'.bounces ≤ maxB := by
  unfold collideOne at h
  cases hs : splitAtLast (checkCubeCollision bu) s.blocks with
  | none =>
    rw [hs] at h
    simp at h
    subst h
    exact hin
  | some t =>
    obtain ⟨pre, bl, post⟩ := t
    rw [hs] at h
    by_cases hbb : maxB < bu.bounces + 1
    · by_cases hd : ({ bl with hp := bl.hp - bu.damage } : Block).hp ≤ 0 <;>
        simp [hd, hbb] at h
    · by_cases hd : ({ bl with hp := bl.hp - bu.damage } : Block).hp ≤ 0 <;>
        simp [hd, hbb] at h <;>
        · rw [← h]
          simp
          omega

/-- The collision pass never changes the max-bounces upgrade level. -/
theorem collideAllRev_maxBounces (env : Env) (maxB : ℕ) :
    ∀ (l : List Bullet) (s : GameState) (k : ℕ),
      (collideAllRev env maxB l s k).2.1.maxBounces = s.maxBounces := by
  intro l
  induction l with
  | nil => intro s k; simp [collideAllRev]
  | cons bu rest ih =>
    intro s k
    unfold collideAllRev
    rw [ih]
    exact collideOne_maxBounces env maxB k bu s

/-- Every bullet kept by the collision pass has at most `maxB` bounces. -/
theorem collideAllRev_bounces (env : Env) (maxB : ℕ) :
    ∀ (l : List Bullet) (s : GameState) (k : ℕ),
      (∀ bu ∈ l, bu.bounces ≤ maxB) →
      ∀ b' ∈ (collideAllRev env maxB l s k).1, b'.bounces ≤ maxB := by
  intro l
  induction l with
  | nil => intro s k _ b' hb'; simp [collideAllRev] at hb'
  | cons bu rest ih =>
    intro s k hall b' hb'
    simp only [collideAllRev] at hb'
    cases hk : (collideOne env maxB bu s k).1 with
    | none =>
      rw [hk] at hb'
      simp at hb'
      exact ih _ _ (fun x hx => hall x (List.mem_cons_of_mem bu hx)) b' hb'
    | some bk =>
      rw [hk] at hb'
      simp at hb'
      rcases hb' with hb' | hb'
      · subst hb'
        exact collideOne_kept_bounces env maxB k bu s b' (hall bu (List.mem_cons_self bu rest)) hk
      · exact ih _ _ (fun x hx => hall x (List.mem_cons_of_mem bu hx)) b' hb'


/-- After the core frame step every live bullet's bounce counter is at most
the max-bounces upgrade level. -/
theorem updateCore_bounces (env : Env) (s : GameState) :
    ∀ bu ∈ (updateCore env s).bullets, bu.bounces ≤ (updateCore env s).maxBounces := by
  intro bu hbu
  unfold updateCore at hbu ⊢
  by_cases hmv : (moveBlocksRev env (spawnBlock env 0 (shootBulletInDirection env s)).1.currentBlockSpeed
      (spawnBlock env 0 (shootBulletInDirection env s)).1.blocks.reverse
      (spawnBlock env 0 (shootBulletInDirection env s)).1.grid).2.2
  · simp only [hmv, if_true] at hbu ⊢
    simp only [List.mem_filterMap] at hbu
    obtain ⟨a, _, ha⟩ := hbu
    exact bulletWallStep_bounces env _ a bu ha
  · simp only [hmv, if_false, Bool.false_eq_true] at hbu ⊢
    simp only [List.mem_reverse] at hbu
    rw [collideAllRev_maxBounces]
    refine collideAllRev_bounces env _ _ _ _ ?_ bu hbu
    intro x hx
    rw [List.mem_reverse] at hx
    simp only [List.mem_filterMap] at hx
    obtain ⟨a, _, ha⟩ := hx
    exact bulletWallStep_bounces env _ a x ha


/-- `splitAtLast` decomposes its input: the found element sits between the
returned prefix and suffix. -/
theorem splitAtLast_eq_append {α : Type} (p : α → Bool) :
    ∀ (l pre : List α) (x : α) (post : List α),
      splitAtLast p l = some (pre, x, post) → l = pre ++ x :: post := by
  intro l
  induction l with
  | nil => intro pre x post h; simp [splitAtLast] at h
  | cons a rest ih =>
    intro pre x post h
    unfold splitAtLast at h
    cases hr : splitAtLast p rest with
    | some t =>
      obtain ⟨p1, x1, p2⟩ := t
      rw [hr] at h
      simp only [Option.some.injEq, Prod.mk.injEq] at h
      obtain ⟨h1, h2, h3⟩ := h
      subst h1
      subst h2
      subst h3
      simp [ih p1 x1 p2 hr]
    | none =>
      rw [hr] at h
      by_cases hp : p a
      · rw [if_pos hp] at h
        simp only [Option.some.injEq, Prod.mk.injEq] at h
        obtain ⟨h1, h2, h3⟩ := h
        subst h1
        subst h2
        subst h3
        rfl
      · rw [if_neg hp] at h
        cases h

/-- `splitBlock` keeps every block's HP and max HP strictly positive
(children get `⌈maxHp/2⌉ ≥ 1`). -/
theorem splitBlock_blocks_pos (env : Env) (k : ℕ) (bl : Block) (s : GameState)
    (helite : bl.isElite = false) (hm : 0 < bl.maxHp)
    (hall : ∀ b ∈ s.blocks, 0 < b.hp ∧ 0 < b.maxHp) :
    ∀ b ∈ (splitBlock env k bl s).1.blocks, 0 < b.hp ∧ 0 < b.maxHp := by
  obtain ⟨children, hb, _, hprops, _⟩ := splitBlock_children env k bl s helite
  rw [hb]
  intro b hbmem
  rcases List.mem_append.mp hbmem with h | h
  · exact hall b h
  · obtain ⟨hsz, hhp, hmx, _, _⟩ := hprops b h
    have hpos : 0 < ⌈(bl.maxHp : ℚ) / 2⌉ := by
      refine Int.ceil_pos.mpr ?_
      have : (0 : ℚ) < (bl.maxHp : ℚ) := by exact_mod_cast hm
      linarith
    rw [hhp, hmx]
    exact ⟨hpos, hpos⟩

/-- `spawnEliteBlock` keeps HP positivity (elite HP `level * 10 > 0` when
`level ≥ 1`). -/
theorem spawnEliteBlock_blocks_pos (env : Env) (k : ℕ) (s : GameState)
    (hlev : 1 ≤ s.level)
    (hall : ∀ b ∈ s.blocks, 0 < b.hp ∧ 0 < b.maxHp) :
    ∀ b ∈ (spawnEliteBlock env k s).1.blocks, 0 < b.hp ∧ 0 < b.maxHp := by
  have hp10 : (0 : ℤ) < (s.level : ℤ) * 10 := by
    have : (1 : ℤ) ≤ (s.level : ℤ) := by exact_mod_cast hlev
    nlinarith
  cases h : findAvailableGridCell s.grid (env.orders k)
      (tierSize Tier.LARGE + (s.level : ℚ) * 10) with
  | none => simpa [spawnEliteBlock, h] using hall
  | some gp =>
    intro b hb
    simp only [spawnEliteBlock, h, List.mem_append, List.mem_singleton] at hb
    rcases hb with hb | hb
    · exact hall b hb
    · subst hb
      exact ⟨hp10, hp10⟩

/-- `levelUp` keeps HP positivity (the new level is at least 1). -/
theorem levelUp_blocks_pos (env : Env) (k : ℕ) (s : GameState)
    (hall : ∀ b ∈ s.blocks, 0 < b.hp ∧ 0 < b.maxHp) :
    ∀ b ∈ (levelUp env k s).1.blocks, 0 < b.hp ∧ 0 < b.maxHp := by
  unfold levelUp
  exact spawnEliteBlock_blocks_pos env k _ (by simp) (by simpa using hall)

/-- `handleDeadBlock` keeps HP positivity on every path. -/
theorem handleDeadBlock_blocks_pos (env : Env) (k : ℕ) (bl : Block)
    (s : GameState) (hm : 0 < bl.maxHp)
    (hall : ∀ b ∈ s.blocks, 0 < b.hp ∧ 0 < b.maxHp) :
    ∀ b ∈ (handleDeadBlock env k bl s).1.blocks, 0 < b.hp ∧ 0 < b.maxHp := by
  intro b hb
  unfold handleDeadBlock at hb
  by_cases hc : (decide (bl.size = Tier.SMALL) || bl.isElite) = true
  · have hsp : ¬(bl.size ≠ Tier.SMALL ∧ bl.isElite = false) := by
      simp only [Bool.or_eq_true, decide_eq_true_eq] at hc
      rcases hc with h | h
      · intro hx; exact hx.1 h
      · intro hx; rw [hx.2] at h; cases h
    by_cases hth : s.requiredKills ≤ s.kills + 1
    · simp only [hc, hth, if_true, hsp, if_false] at hb
      exact levelUp_blocks_pos env k _ hall b hb
    · simp only [hc, hth, if_true, if_false, hsp] at hb
      exact hall b hb
  · have hsp : bl.size ≠ Tier.SMALL ∧ bl.isElite = false := by
      simp only [Bool.or_eq_true, decide_eq_true_eq, not_or] at hc
      push_neg at hc
      exact ⟨hc.1, by simpa using hc.2⟩
    simp [hc, hsp.1, hsp.2] at hb
    exact splitBlock_blocks_pos env k bl _ hsp.2 hm hall b hb

/-- One collision resolution keeps HP positivity: a surviving damaged block
is re-inserted only when its HP is still positive, a dead block is removed
in the same pass, and any spawned children or elites have positive HP. -/
theorem collideOne_blocks_pos (env : Env) (maxB k : ℕ) (bu : Bullet)
    (s : GameState) (hall : ∀ b ∈ s.blocks, 0 < b.hp ∧ 0 < b.maxHp) :
    ∀ b ∈ (collideOne env maxB bu s k).2.1.blocks, 0 < b.hp ∧ 0 < b.maxHp := by
  unfold collideOne
  cases hs : splitAtLast (checkCubeCollision bu) s.blocks with
  | none => simpa using hall
  | some t =>
    obtain ⟨pre, bl, post⟩ := t
    have heq := splitAtLast_eq_append (checkCubeCollision bu) s.blocks pre bl post hs
    have hpre : ∀ b ∈ pre ++ post, 0 < b.hp ∧ 0 < b.maxHp := by
      intro b hb
      refine hall b ?_
      rw [heq]
      rcases List.mem_append.mp hb with h | h
      · exact List.mem_append_left _ h
      · exact List.mem_append_right _ (List.mem_cons_of_mem bl h)
    have hbl : 0 < bl.hp ∧ 0 < bl.maxHp := by
      refine hall bl ?_
      rw [heq]
      exact List.mem_append_right _ (List.mem_cons_self bl post)
    by_cases hd : ({ bl with hp := bl.hp - bu.damage } : Block).hp ≤ 0
    · by_cases hbb : maxB < bu.bounces + 1 <;>
        · simp only [hd, hbb, if_true, if_false, ite_true, ite_false]
          intro b hb
          exact handleDeadBlock_blocks_pos env k _ _ hbl.2 hpre b hb
    · by_cases hbb : maxB < bu.bounces + 1 <;>
        · simp only [hd, hbb, if_true, if_false, ite_true, ite_false]
          intro b hb
          simp only [List.mem_append, List.mem_cons] at hb
          rcases hb with hb | hb | hb
          · exact hpre b (List.mem_append_left _ hb)
          · subst hb
            exact ⟨by simpa using not_le.mp hd, hbl.2⟩
          · exact hpre b (List.mem_append_right _ hb)

/-- The whole collision pass keeps HP positivity. -/
theorem collideAllRev_blocks_pos (env : Env) (maxB : ℕ) :
    ∀ (l : List Bullet) (s : GameState) (k : ℕ),
      (∀ b ∈ s.blocks, 0 < b.hp ∧ 0 < b.maxHp) →
      ∀ b ∈ (collideAllRev env maxB l s k).2.1.blocks, 0 < b.hp ∧ 0 < b.maxHp := by
  intro l
  induction l with
  | nil => intro s k hall; simpa [collideAllRev] using hall
  | cons bu rest ih =>
    intro s k hall
    unfold collideAllRev
    exact ih _ _ (collideOne_blocks_pos env maxB k bu s hall)


/-- Moving a block never changes its HP. -/
theorem moveBlockStep_hp (env : Env) (spd : ℚ) (b : Block) (g : Finset (ℕ × ℕ)) :
    (moveBlockStep env spd b g).1.hp = b.hp ∧
    (moveBlockStep env spd b g).1.maxHp = b.maxHp := by
  unfold moveBlockStep
  by_cases h : b.gridFreed = false ∧
      10 * GRID_CELL_SIZE < b.y + (if b.speed = 0 then spd else b.speed) <;>
    simp [h]

/-- The block movement loop never changes any HP. -/
theorem moveBlocksRev_hp (env : Env) (spd : ℚ) :
    ∀ (l : List Block) (g : Finset (ℕ × ℕ)),
      (∀ b ∈ l, 0 < b.hp ∧ 0 < b.maxHp) →
      ∀ b ∈ (moveBlocksRev env spd l g).1, 0 < b.hp ∧ 0 < b.maxHp := by
  intro l
  induction l with
  | nil => intro g _ b hb; simp [moveBlocksRev] at hb
  | cons a rest ih =>
    intro g hall b hb
    have hstep := moveBlockStep_hp env spd a g
    have hstepP : 0 < (moveBlockStep env spd a g).1.hp ∧
        0 < (moveBlockStep env spd a g).1.maxHp := by
      rw [hstep.1, hstep.2]
      exact hall a (List.mem_cons_self a rest)
    unfold moveBlocksRev at hb
    by_cases hover : (moveBlockStep env spd a g).2.2 = true
    · rw [if_pos hover] at hb
      rcases List.mem_cons.mp hb with hb | hb
      · subst hb
        exact hstepP
      · exact hall b (List.mem_cons_of_mem a hb)
    · rw [if_neg hover] at hb
      rcases List.mem_cons.mp hb with hb | hb
      · subst hb
        exact hstepP
      · exact ih _ (fun x hx => hall x (List.mem_cons_of_mem a hx)) b hb

/-- Firing touches neither the block list, the level, the grid, nor the
max-bounces level. -/
theorem shootBullet_fields (env : Env) (s : GameState) :
    (shootBulletInDirection env s).blocks = s.blocks ∧
    (shootBulletInDirection env s).level = s.level ∧
    (shootBulletInDirection env s).grid = s.grid ∧
    (shootBulletInDirection env s).maxBounces = s.maxBounces := by
  unfold shootBulletInDirection
  by_cases h : env.now - s.lastShot < 150 <;> simp [h]

/-- `spawnBlock` keeps HP positivity (spawned LARGE blocks get
`level * 5 > 0` when `level ≥ 1`). -/
theorem spawnBlock_blocks_pos (env : Env) (k : ℕ) (s : GameState)
    (hlev : 1 ≤ s.level) (hall : ∀ b ∈ s.blocks, 0 < b.hp ∧ 0 < b.maxHp) :
    ∀ b ∈ (spawnBlock env k s).1.blocks, 0 < b.hp ∧ 0 < b.maxHp := by
  have hp5 : (0 : ℤ) < (s.level : ℤ) * 5 := by
    have h1 : (1 : ℤ) ≤ (s.level : ℤ) := by exact_mod_cast hlev
    nlinarith
  intro b hb
  unfold spawnBlock at hb
  by_cases ht : ((env.now : ℚ) - (s.lastBlockSpawn : ℚ)) < s.currentSpawnInterval
  · simp [ht] at hb
    exact hall b hb
  · cases h1 : findAvailableGridCell s.grid (env.orders k) (tierSize Tier.LARGE) with
    | none =>
      simp [ht, h1] at hb
      exact hall b hb
    | some gp =>
      by_cases hlr : 3 ≤ s.level ∧ env.roll2 = true
      · cases h2 : findAvailableGridCell
            (occupyCells s.grid gp.row gp.col gp.cellsNeeded) (env.orders (k + 1))
            (tierSize Tier.LARGE) with
        | none =>
          simp [ht, h1, h2, hlr] at hb
          rcases hb with hb | hb
          · exact hall b hb
          · subst hb
            exact ⟨hp5, hp5⟩
        | some gp2 =>
          simp [ht, h1, h2, hlr] at hb
          rcases hb with hb | hb | hb
          · exact hall b hb
          · subst hb
            exact ⟨hp5, hp5⟩
          · subst hb
            exact ⟨hp5, hp5⟩
      · simp [ht, h1, hlr] at hb
        rcases hb with hb | hb
        · exact hall b hb
        · subst hb
          exact ⟨hp5, hp5⟩

/-- The core frame step keeps HP positivity, given `level ≥ 1`. -/
theorem updateCore_blocks_pos (env : Env) (s : GameState)
    (hlev : 1 ≤ s.level)
    (hall : ∀ b ∈ s.blocks, 0 < b.hp ∧ 0 < b.maxHp) :
    ∀ b ∈ (updateCore env s).blocks, 0 < b.hp ∧ 0 < b.maxHp := by
  have hsh := shootBullet_fields env s
  have h1 : ∀ b ∈ (shootBulletInDirection env s).blocks, 0 < b.hp ∧ 0 < b.maxHp := by
    rw [hsh.1]
    exact hall
  have hlev1 : 1 ≤ (shootBulletInDirection env s).level := by
    rw [hsh.2.1]
    exact hlev
  have h2 := spawnBlock_blocks_pos env 0 _ hlev1 h1
  have h3 : ∀ b ∈ (spawnBlock env 0 (shootBulletInDirection env s)).1.blocks.reverse,
      0 < b.hp ∧ 0 < b.maxHp := fun b hb => h2 b (List.mem_reverse.mp hb)
  intro b hb
  unfold updateCore at hb
  by_cases hmv : (moveBlocksRev env
      (spawnBlock env 0 (shootBulletInDirection env s)).1.currentBlockSpeed
      (spawnBlock env 0 (shootBulletInDirection env s)).1.blocks.reverse
      (spawnBlock env 0 (shootBulletInDirection env s)).1.grid).2.2
  · simp only [hmv, if_true] at hb
    simp only [List.mem_reverse] at hb
    exact moveBlocksRev_hp env _ _ _ h3 b hb
  · simp only [hmv, if_false, Bool.false_eq_true] at hb
    refine collideAllRev_blocks_pos env _ _ _ _ ?_ b hb
    intro b' hb'
    simp only [List.mem_reverse] at hb'
    exact moveBlocksRev_hp env _ _ _ h3 b' hb'


/-- C1: at the end of a completed frame update (flags clear, so the update
actually runs), every live projectile's bounce counter is at most the
current max-bounces upgrade value — equivalently, any projectile whose
counter exceeded it during the frame's wall or enemy contacts was removed
within that same frame. -/
theorem projectile_bounces_le_max (env : Env) (s : GameState)
    (hover : s.gameOver = false) (hpause : s.gamePaused = false) :
    ∀ bu ∈ (update env s).bullets, bu.bounces ≤ (update env s).maxBounces := by
  have h := updateCore_bounces env s
  unfold update
  simpa [hover, hpause] using h

/-- A fresh state with one mid-air bullet that touches nothing this frame. -/
def cruisingState : GameState :=
  { freshState with
    bullets := [{ x := 10, y := 10, width := 6, height := 6, vx := 1, vy := 1,
                  bounces := 0, damage := 1 }] }

/-- Witness for C1: the surviving bullet of a concrete frame has
`bounces = 0 ≤ maxBounces`. -/
theorem projectile_bounces_le_max_witness :
    ({ x := 11, y := 11, width := 6, height := 6, vx := 1, vy := 1,
       bounces := 0, damage := 1 } : Bullet).bounces
      ≤ (update env0 cruisingState).maxBounces :=
  projectile_bounces_le_max env0 cruisingState rfl rfl _ (by with_unfolding_all decide)

/-- C2: a frame update keeps every live enemy's HP strictly positive — any
enemy whose HP drops to 0 or below during collision resolution is removed
within the same pass, and all enemies spawned during the frame start with
positive HP (`level ≥ 1` as established by `initGame`). -/
theorem enemy_hp_positive_after_update (env : Env) (s : GameState)
    (hlev : 1 ≤ s.level)
    (hall : ∀ b ∈ s.blocks, 0 < b.hp ∧ 0 < b.maxHp) :
    ∀ b ∈ (update env s).blocks, 0 < b.hp ∧ 0 < b.maxHp := by
  unfold update
  by_cases hflag : (s.gameOver || s.gamePaused) = true
  · rw [if_pos hflag]
    exact hall
  · rw [if_neg hflag]
    exact updateCore_blocks_pos env s hlev hall

/-- A fresh state holding one healthy block, for the C2 witness. -/
def hpInvState : GameState := { freshState with blocks := [splitParent] }

/-- Witness for C2: after a concrete frame the moved block still has
positive HP. -/
theorem enemy_hp_positive_after_update_witness :
    0 < ({ splitParent with y := 49 } : Block).hp ∧
    0 < ({ splitParent with y := 49 } : Block).maxHp :=
  enemy_hp_positive_after_update env0 hpInvState (by decide)
    (by with_unfolding_all decide) _ (by with_unfolding_all decide)

end BounceShooter
